import Mathlib

/-!
Verification of the Clipper webhook receiver
(`src/examples/webhooks/python-flask/server.py`).

The development shallowly embeds the server's request pipeline:

* `verify_webhook_signature` — HMAC-SHA256 signature verification
  (`hmac.new(secret.encode('utf-8'), payload, hashlib.sha256).hexdigest()`
  compared with `hmac.compare_digest`), including the `TypeError` raised by
  `compare_digest` on non-ASCII strings (surfaced by the server as a 500).
* `pyDecodeBytes` / `jsonLoads` — the `json.loads(payload)` step on bytes,
  split into CPython's encoding detection (`json.detect_encoding`: BOM
  sniffing and NUL-byte patterns) plus decoding with the `'surrogatepass'`
  error handler (an undecodable body raises `UnicodeDecodeError`, which the
  server does not catch) and JSON parsing proper (`json.JSONDecodeError`,
  which the server catches and maps to 400).  Decoded text and JSON string
  values are code-point lists, since CPython strings may carry unpaired
  surrogates.
* `containsKey` — Python's `'key' in data` on an arbitrary parsed value
  (key lookup for dicts, element equality for lists, substring for strings,
  `TypeError` for numbers, booleans and `None`).
* `process_webhook_event` / `tryDispatch` — the event handler, which raises
  `AttributeError` when the `data` field of the envelope is not a dict and
  the event type is one of the three known ones; the server swallows any
  exception from the dispatch block.
* `recordStep` — the ledger update (`processed_deliveries.add` plus the
  `list(processed_deliveries)[:100]` cleanup).  Iteration order of a Python
  `set` is arbitrary, so the model takes the order as a parameter `sel`;
  an order is `Admissible` when it is a permutation of the set's elements.
* `webhook` — the full `POST /webhook` handler, returning status code,
  response body tag, the new ledger state, the trace of pipeline components
  that ran, and the captured handler outcome.

Bytes are modelled as `List Nat` (each entry < 256), machine words as `Nat`
reduced mod 2^32 at each step.
-/

/-! ### SHA-256 -/

def w32 (n : Nat) : Nat := n % 4294967296

def rotr32 (n w : Nat) : Nat := w32 ((w >>> n) ||| (w <<< (32 - n)))

def smallSigma0 (x : Nat) : Nat := (rotr32 7 x) ^^^ (rotr32 18 x) ^^^ (x >>> 3)

def smallSigma1 (x : Nat) : Nat := (rotr32 17 x) ^^^ (rotr32 19 x) ^^^ (x >>> 10)

def bigSigma0 (x : Nat) : Nat := (rotr32 2 x) ^^^ (rotr32 13 x) ^^^ (rotr32 22 x)

def bigSigma1 (x : Nat) : Nat := (rotr32 6 x) ^^^ (rotr32 11 x) ^^^ (rotr32 25 x)

def chFn (x y z : Nat) : Nat := (x &&& y) ^^^ ((x ^^^ 4294967295) &&& z)

def majFn (x y z : Nat) : Nat := (x &&& y) ^^^ (x &&& z) ^^^ (y &&& z)

def shaK : List Nat :=
  [1116352408, 1899447441, 3049323471, 3921009573, 961987163,
   1508970993, 2453635748, 2870763221, 3624381080, 310598401,
   607225278, 1426881987, 1925078388, 2162078206, 2614888103,
   3248222580, 3835390401, 4022224774, 264347078, 604807628,
   770255983, 1249150122, 1555081692, 1996064986, 2554220882,
   2821834349, 2952996808, 3210313671, 3336571891, 3584528711,
   113926993, 338241895, 666307205, 773529912, 1294757372,
   1396182291, 1695183700, 1986661051, 2177026350, 2456956037,
   2730485921, 2820302411, 3259730800, 3345764771, 3516065817,
   3600352804, 4094571909, 275423344, 430227734, 506948616,
   659060556, 883997877, 958139571, 1322822218, 1537002063,
   1747873779, 1955562222, 2024104815, 2227730452, 2361852424,
   2428436474, 2756734187, 3204031479, 3329325298]

/-- Big-endian byte serialisation of the low `n` bytes of `v`. -/
def toBytesBE : Nat → Nat → List Nat
  | 0, _ => []
  | n + 1, v => toBytesBE n (v / 256) ++ [v % 256]

/-- SHA-256 padding: append `0x80`, zeros, and the 64-bit big-endian bit length. -/
def padMsg (msg : List Nat) : List Nat :=
  let L := msg.length
  let k := (119 - L % 64) % 64
  msg ++ 0x80 :: (List.replicate k 0 ++ toBytesBE 8 (8 * L))

def chunksGo : Nat → List Nat → List (List Nat)
  | 0, _ => []
  | _, [] => []
  | n + 1, b :: t => (b :: t).take 64 :: chunksGo n ((b :: t).drop 64)

def chunk64 (l : List Nat) : List (List Nat) := chunksGo l.length l

def wordsOfBlock : List Nat → List Nat
  | b0 :: b1 :: b2 :: b3 :: rest =>
      (b0 * 16777216 + b1 * 65536 + b2 * 256 + b3) :: wordsOfBlock rest
  | _ => []

/-- Extend the 16 block words to the 64-entry message schedule. -/
def schedule (ws : List Nat) : List Nat :=
  (List.range 48).foldl
    (fun acc _ =>
      let i := acc.length
      let x := w32 (smallSigma1 (acc.getD (i - 2) 0) + acc.getD (i - 7) 0 +
                    smallSigma0 (acc.getD (i - 15) 0) + acc.getD (i - 16) 0)
      acc ++ [x])
    ws

structure Hash8 where
  ha : Nat
  hb : Nat
  hc : Nat
  hd : Nat
  he : Nat
  hf : Nat
  hg : Nat
  hh : Nat

def roundStep (s : Hash8) (kw : Nat × Nat) : Hash8 :=
  let t1 := w32 (s.hh + bigSigma1 s.he + chFn s.he s.hf s.hg + kw.1 + kw.2)
  let t2 := w32 (bigSigma0 s.ha + majFn s.ha s.hb s.hc)
  ⟨w32 (t1 + t2), s.ha, s.hb, s.hc, w32 (s.hd + t1), s.he, s.hf, s.hg⟩

def compressBlock (s : Hash8) (block : List Nat) : Hash8 :=
  let ws := schedule (wordsOfBlock block)
  let f := (shaK.zip ws).foldl roundStep s
  ⟨w32 (s.ha + f.ha), w32 (s.hb + f.hb), w32 (s.hc + f.hc), w32 (s.hd + f.hd),
   w32 (s.he + f.he), w32 (s.hf + f.hf), w32 (s.hg + f.hg), w32 (s.hh + f.hh)⟩

/-- Big-endian bytes of one 32-bit word. -/
def word4 (w : Nat) : List Nat :=
  [w / 16777216 % 256, w / 65536 % 256, w / 256 % 256, w % 256]

def shaH0 : Hash8 :=
  ⟨1779033703, 3144134277, 1013904242, 2773480762,
   1359893119, 2600822924, 528734635, 1541459225⟩

def sha256 (msg : List Nat) : List Nat :=
  let f := (chunk64 (padMsg msg)).foldl compressBlock shaH0
  word4 f.ha ++ word4 f.hb ++ word4 f.hc ++ word4 f.hd ++
  word4 f.he ++ word4 f.hf ++ word4 f.hg ++ word4 f.hh

/-! ### HMAC-SHA256, hex digest, `hmac.compare_digest` -/

def hmacSha256 (key msg : List Nat) : List Nat :=
  let k0 := if 64 < key.length then sha256 key else key
  let kp := k0 ++ List.replicate (64 - k0.length) 0
  let ipad := kp.map (fun b => b ^^^ 0x36)
  let opad := kp.map (fun b => b ^^^ 0x5c)
  sha256 (opad ++ sha256 (ipad ++ msg))

def hexDigitChar (n : Nat) : Char := "0123456789abcdef".toList.getD n '0'

def hexOfBytes (bs : List Nat) : String :=
  ⟨bs.foldr (fun b acc => hexDigitChar (b / 16 % 16) :: hexDigitChar (b % 16) :: acc) []⟩

/-- `str.isascii` as used by `hmac.compare_digest` on `str` arguments. -/
def strIsAscii (s : String) : Bool := s.data.all (fun c => c.toNat < 128)

/-- Python's `hmac.compare_digest` on two `str` arguments: raises `TypeError`
(modelled as `.error ()`) unless both are ASCII-only, otherwise a
timing-safe equality check. -/
def compareDigest (a b : String) : Except Unit Bool :=
  if strIsAscii a && strIsAscii b then .ok (a == b) else .error ()

/-- UTF-8 encoding of one scalar value (Python `str.encode('utf-8')`). -/
def utf8EncodeChar (c : Char) : List Nat :=
  let n := c.toNat
  if n < 128 then [n]
  else if n < 2048 then [192 + n / 64, 128 + n % 64]
  else if n < 65536 then [224 + n / 4096, 128 + n / 64 % 64, 128 + n % 64]
  else [240 + n / 262144, 128 + n / 4096 % 64, 128 + n / 64 % 64, 128 + n % 64]

def utf8Encode (s : String) : List Nat :=
  s.data.foldr (fun c acc => utf8EncodeChar c ++ acc) []

/-- `verify_webhook_signature` from the server: the hex HMAC-SHA256 digest of
the raw payload under the shared secret, compared with the provided
signature via `hmac.compare_digest`. -/
def verify_webhook_signature (payload : List Nat) (signature : String) (secret : String) :
    Except Unit Bool :=
  let expected_signature := hexOfBytes (hmacSha256 (utf8Encode secret) payload)
  compareDigest signature expected_signature

/-- The hex-encoded HMAC-SHA256 of `body` under `secret` — the signature the
sender attaches to a request. -/
def hexhmac (body : List Nat) (secret : String) : String :=
  hexOfBytes (hmacSha256 (utf8Encode secret) body)

/-! ### Python bytes decoding

`json.loads(payload)` on `bytes` first picks an encoding with
`json.detect_encoding` (BOM sniffing, then NUL-byte patterns) and then runs
`payload.decode(encoding, 'surrogatepass')`.  With `'surrogatepass'` the
decoders accept the natural encodings of the surrogate code points
U+D800–U+DFFF, so a decoded CPython `str` — and hence a parsed JSON string —
can contain unpaired surrogates.  Decoded text is therefore modelled as a
`List Nat` of code points rather than Lean `Char`s.  Decode failure raises
`UnicodeDecodeError`, which the webhook handler does not catch. -/

def contByte (b : Nat) : Bool := 128 ≤ b && b ≤ 191

/-- UTF-8 decoding with the `'surrogatepass'` error handler: strict UTF-8
plus the three-byte sequences `ED A0..BF 80..BF` encoding the surrogates,
which pass through as lone code points. -/
def utf8Decode : List Nat → Option (List Nat)
  | [] => some []
  | b :: t =>
    if b ≤ 127 then (utf8Decode t).map (fun cs => b :: cs)
    else if b ≤ 193 then none
    else if b ≤ 223 then
      match t with
      | b2 :: t2 =>
          if contByte b2 then
            (utf8Decode t2).map (fun cs => ((b - 192) * 64 + (b2 - 128)) :: cs)
          else none
      | _ => none
    else if b ≤ 239 then
      match t with
      | b2 :: b3 :: t2 =>
          let lo2 := if b = 224 then 160 else 128
          if lo2 ≤ b2 && b2 ≤ 191 && contByte b3 then
            (utf8Decode t2).map
              (fun cs => ((b - 224) * 4096 + (b2 - 128) * 64 + (b3 - 128)) :: cs)
          else none
      | _ => none
    else if b ≤ 244 then
      match t with
      | b2 :: b3 :: b4 :: t2 =>
          let lo2 := if b = 240 then 144 else 128
          let hi2 := if b = 244 then 143 else 191
          if lo2 ≤ b2 && b2 ≤ hi2 && contByte b3 && contByte b4 then
            (utf8Decode t2).map
              (fun cs =>
                ((b - 240) * 262144 + (b2 - 128) * 4096 + (b3 - 128) * 64 + (b4 - 128)) :: cs)
          else none
      | _ => none
    else none

/-- Assemble UTF-16 code units from bytes; an odd byte count is truncated
data and fails. -/
def utf16Units (le : Bool) : List Nat → Option (List Nat)
  | [] => some []
  | b0 :: b1 :: rest =>
      (utf16Units le rest).map (fun us => (if le then b1 * 256 + b0 else b0 * 256 + b1) :: us)
  | _ => none

def isHighSurrogate (u : Nat) : Bool := 55296 ≤ u && u ≤ 56319

def isLowSurrogate (u : Nat) : Bool := 56320 ≤ u && u ≤ 57343

def surrogatePair (u v : Nat) : Nat := 65536 + (u - 55296) * 1024 + (v - 56320)

/-- Combine adjacent high/low surrogate pairs into scalar values, passing
unpaired surrogates through (the `'surrogatepass'` behaviour of the UTF-16
decoder).  The first argument holds a pending high surrogate awaiting its
partner. -/
def combineSurrogatesGo : Option Nat → List Nat → List Nat
  | none, [] => []
  | some u, [] => [u]
  | none, v :: t =>
      if isHighSurrogate v then combineSurrogatesGo (some v) t
      else v :: combineSurrogatesGo none t
  | some u, v :: t =>
      if isLowSurrogate v then surrogatePair u v :: combineSurrogatesGo none t
      else if isHighSurrogate v then u :: combineSurrogatesGo (some v) t
      else u :: v :: combineSurrogatesGo none t

def combineSurrogates (l : List Nat) : List Nat := combineSurrogatesGo none l

def utf16Decode (le : Bool) (b : List Nat) : Option (List Nat) :=
  (utf16Units le b).map combineSurrogates

/-- UTF-32 decoding with `'surrogatepass'`: four bytes per code point, any
value up to U+10FFFF (surrogates included); truncated or out-of-range data
fails. -/
def utf32Decode (le : Bool) : List Nat → Option (List Nat)
  | [] => some []
  | b0 :: b1 :: b2 :: b3 :: rest =>
      let u := if le then b0 + b1 * 256 + b2 * 65536 + b3 * 16777216
               else b3 + b2 * 256 + b1 * 65536 + b0 * 16777216
      if u ≤ 1114111 then (utf32Decode le rest).map (fun cs => u :: cs) else none
  | _ => none

inductive PyEnc where
  | utf8
  | utf8sig
  | utf16
  | utf16be
  | utf16le
  | utf32
  | utf32be
  | utf32le
deriving DecidableEq

/-- `json.detect_encoding`: the UTF-32 BOMs, then the UTF-16 BOMs, then the
UTF-8 BOM, then the NUL-byte patterns of four-byte (or exactly two-byte)
inputs, defaulting to UTF-8. -/
def detectEncoding (b : List Nat) : PyEnc :=
  match b with
  | 0 :: 0 :: 254 :: 255 :: _ => .utf32
  | 255 :: 254 :: 0 :: 0 :: _ => .utf32
  | 254 :: 255 :: _ => .utf16
  | 255 :: 254 :: _ => .utf16
  | 239 :: 187 :: 191 :: _ => .utf8sig
  | b0 :: b1 :: b2 :: b3 :: _ =>
      if b0 = 0 then (if b1 ≠ 0 then .utf16be else .utf32be)
      else if b1 = 0 then (if b2 ≠ 0 ∨ b3 ≠ 0 then .utf16le else .utf32le)
      else .utf8
  | [b0, b1] =>
      if b0 = 0 then .utf16be
      else if b1 = 0 then .utf16le
      else .utf8
  | _ => .utf8

/-- The decoding step of `json.loads` on `bytes`:
`payload.decode(json.detect_encoding(payload), 'surrogatepass')`.  The
`utf-8-sig` codec strips the BOM; the BOM-detected `utf-16`/`utf-32`
codecs consume their BOM and decode the rest in the indicated byte
order. -/
def pyDecodeBytes (b : List Nat) : Option (List Nat) :=
  match detectEncoding b with
  | .utf8 => utf8Decode b
  | .utf8sig => utf8Decode (b.drop 3)
  | .utf16 =>
    (match b with
     | 254 :: 255 :: rest => utf16Decode false rest
     | 255 :: 254 :: rest => utf16Decode true rest
     | _ => utf16Decode true b)
  | .utf16be => utf16Decode false b
  | .utf16le => utf16Decode true b
  | .utf32 =>
    (match b with
     | 0 :: 0 :: 254 :: 255 :: rest => utf32Decode false rest
     | 255 :: 254 :: 0 :: 0 :: rest => utf32Decode true rest
     | _ => utf32Decode true b)
  | .utf32be => utf32Decode false b
  | .utf32le => utf32Decode true b

/-! ### JSON values and `json.loads`

The parser operates on the decoded code points.  JSON string values (and
object keys) are kept as code-point lists, since — exactly as in a CPython
`str` — they may contain unpaired surrogates, which Lean's `Char` cannot
carry. -/

inductive JsonVal where
  | null : JsonVal
  | bool : Bool → JsonVal
  /-- Numbers keep their source lexeme; the pipeline never computes with them. -/
  | num : String → JsonVal
  | str : List Nat → JsonVal
  | arr : List JsonVal → JsonVal
  | obj : List (List Nat × JsonVal) → JsonVal

/-- The code points of a literal string (a surrogate-free CPython `str`). -/
def strCodes (s : String) : List Nat := s.data.map Char.toNat

def isWsCode (c : Nat) : Bool := c == 32 || c == 9 || c == 10 || c == 13

def skipWs : List Nat → List Nat
  | [] => []
  | c :: t => if isWsCode c then skipWs t else c :: t

def isDigitCode (c : Nat) : Bool := 48 ≤ c && c ≤ 57

def hexCodeVal (c : Nat) : Option Nat :=
  if isDigitCode c then some (c - 48)
  else if 97 ≤ c && c ≤ 102 then some (c - 87)
  else if 65 ≤ c && c ≤ 70 then some (c - 55)
  else none

/-- One scanned unit of a JSON string body: either an already decoded code
point copied verbatim (raw text or a single-character escape), or the value
of a `\uXXXX` escape — tagged, because only `\uXXXX` escapes take part in
surrogate-pair combining. -/
inductive StrUnit where
  | raw : Nat → StrUnit
  | esc : Nat → StrUnit

/-- Scan a JSON string body (after the opening `"`, code 34) into tagged
units, handling the escape sequences of the JSON grammar; returns the units
and the remaining input after the closing quote. -/
def strUnits : List Nat → Option (List StrUnit × List Nat)
  | [] => none
  | 34 :: t => some ([], t)
  | 92 :: 117 :: h1 :: h2 :: h3 :: h4 :: t =>
    (match hexCodeVal h1, hexCodeVal h2, hexCodeVal h3, hexCodeVal h4 with
     | some v1, some v2, some v3, some v4 =>
        (strUnits t).map
          (fun p => (StrUnit.esc (v1 * 4096 + v2 * 256 + v3 * 16 + v4) :: p.1, p.2))
     | _, _, _, _ => none)
  | 92 :: e :: t =>
    (match e with
     | 34 => (strUnits t).map (fun p => (StrUnit.raw 34 :: p.1, p.2))
     | 92 => (strUnits t).map (fun p => (StrUnit.raw 92 :: p.1, p.2))
     | 47 => (strUnits t).map (fun p => (StrUnit.raw 47 :: p.1, p.2))
     | 98 => (strUnits t).map (fun p => (StrUnit.raw 8 :: p.1, p.2))
     | 102 => (strUnits t).map (fun p => (StrUnit.raw 12 :: p.1, p.2))
     | 110 => (strUnits t).map (fun p => (StrUnit.raw 10 :: p.1, p.2))
     | 114 => (strUnits t).map (fun p => (StrUnit.raw 13 :: p.1, p.2))
     | 116 => (strUnits t).map (fun p => (StrUnit.raw 9 :: p.1, p.2))
     | _ => none)
  | c :: t =>
    if c < 32 then none else (strUnits t).map (fun p => (StrUnit.raw c :: p.1, p.2))

/-- Combine a `\uXXXX` high surrogate with an immediately following
`\uXXXX` low surrogate; every other unit — including raw surrogate code
points from a `'surrogatepass'` decode — is copied verbatim, exactly as in
CPython's `json` string scanner.  The first argument holds a pending
escaped high surrogate. -/
def combineEscGo : Option Nat → List StrUnit → List Nat
  | none, [] => []
  | some u, [] => [u]
  | none, StrUnit.esc v :: t =>
      if isHighSurrogate v then combineEscGo (some v) t
      else v :: combineEscGo none t
  | none, StrUnit.raw v :: t => v :: combineEscGo none t
  | some u, StrUnit.esc v :: t =>
      if isLowSurrogate v then surrogatePair u v :: combineEscGo none t
      else if isHighSurrogate v then u :: combineEscGo (some v) t
      else u :: v :: combineEscGo none t
  | some u, StrUnit.raw v :: t => u :: v :: combineEscGo none t

/-- Parse the rest of a JSON string (after the opening quote). -/
def parseStringRest (cs : List Nat) : Option (List Nat × List Nat) :=
  (strUnits cs).map (fun p => (combineEscGo none p.1, p.2))

/-- Split a leading run of decimal digits. -/
def takeDigits : List Nat → List Nat × List Nat
  | [] => ([], [])
  | c :: t =>
    if isDigitCode c then
      let p := takeDigits t
      (c :: p.1, p.2)
    else ([], c :: t)

/-- Parse a JSON number per the RFC 8259 grammar, returning its lexeme. -/
def parseNumber (cs : List Nat) : Option (String × List Nat) :=
  let (neg, cs1) := match cs with
    | 45 :: t => ([45], t)
    | _ => (([] : List Nat), cs)
  match cs1 with
  | [] => none
  | c :: _ =>
    if !isDigitCode c then none
    else
      let (intPart, cs2) :=
        match cs1 with
        | 48 :: t => ([48], t)
        | _ => takeDigits cs1
      let (fracPart, cs3) :=
        match cs2 with
        | 46 :: t =>
          (match takeDigits t with
           | ([], _) => (([] : List Nat), cs2)
           | (ds, r) => (46 :: ds, r))
        | _ => ([], cs2)
      if fracPart.isEmpty && (match cs2 with | 46 :: _ => true | _ => false) then none
      else
        let (expPart, cs4) :=
          match cs3 with
          | 101 :: 43 :: t =>
            (match takeDigits t with
             | ([], _) => (([] : List Nat), cs3)
             | (ds, r) => (101 :: 43 :: ds, r))
          | 101 :: 45 :: t =>
            (match takeDigits t with
             | ([], _) => (([] : List Nat), cs3)
             | (ds, r) => (101 :: 45 :: ds, r))
          | 101 :: t =>
            (match takeDigits t with
             | ([], _) => (([] : List Nat), cs3)
             | (ds, r) => (101 :: ds, r))
          | 69 :: 43 :: t =>
            (match takeDigits t with
             | ([], _) => (([] : List Nat), cs3)
             | (ds, r) => (69 :: 43 :: ds, r))
          | 69 :: 45 :: t =>
            (match takeDigits t with
             | ([], _) => (([] : List Nat), cs3)
             | (ds, r) => (69 :: 45 :: ds, r))
          | 69 :: t =>
            (match takeDigits t with
             | ([], _) => (([] : List Nat), cs3)
             | (ds, r) => (69 :: ds, r))
          | _ => ([], cs3)
        if (match cs3 with
            | 101 :: _ => expPart.isEmpty
            | 69 :: _ => expPart.isEmpty
            | _ => false) then none
        else some (⟨(neg ++ intPart ++ fracPart ++ expPart).map Char.ofNat⟩, cs4)

mutual

/-- Parse one JSON value; the first argument is recursion fuel (the caller
supplies more than twice the input length, and the parser consumes at
least one code point per two fuel units, so fuel never runs out). -/
def parseValue : Nat → List Nat → Option (JsonVal × List Nat)
  | 0, _ => none
  | fuel + 1, cs =>
    match cs with
    | 116 :: 114 :: 117 :: 101 :: t => some (.bool true, t)
    | 102 :: 97 :: 108 :: 115 :: 101 :: t => some (.bool false, t)
    | 110 :: 117 :: 108 :: 108 :: t => some (.null, t)
    | 78 :: 97 :: 78 :: t => some (.num "NaN", t)
    | 73 :: 110 :: 102 :: 105 :: 110 :: 105 :: 116 :: 121 :: t => some (.num "Infinity", t)
    | 45 :: 73 :: 110 :: 102 :: 105 :: 110 :: 105 :: 116 :: 121 :: t =>
        some (.num "-Infinity", t)
    | 34 :: t => (parseStringRest t).map (fun p => (.str p.1, p.2))
    | 91 :: t =>
      (match skipWs t with
       | 93 :: r => some (.arr [], r)
       | t2 => parseElems fuel t2)
    | 123 :: t =>
      (match skipWs t with
       | 125 :: r => some (.obj [], r)
       | t2 => parseMembers fuel t2)
    | c :: t =>
      if c == 45 || isDigitCode c then (parseNumber (c :: t)).map (fun p => (.num p.1, p.2))
      else none
    | [] => none

def parseElems : Nat → List Nat → Option (JsonVal × List Nat)
  | 0, _ => none
  | fuel + 1, cs =>
    match parseValue fuel cs with
    | some (v, r) => parseElemsRest fuel [v] r
    | none => none

def parseElemsRest : Nat → List JsonVal → List Nat → Option (JsonVal × List Nat)
  | 0, _, _ => none
  | fuel + 1, acc, cs =>
    match skipWs cs with
    | 93 :: r => some (.arr acc.reverse, r)
    | 44 :: r =>
      (match parseValue fuel (skipWs r) with
       | some (v, r2) => parseElemsRest fuel (v :: acc) r2
       | none => none)
    | _ => none

def parseMembers : Nat → List Nat → Option (JsonVal × List Nat)
  | 0, _ => none
  | fuel + 1, cs =>
    match cs with
    | 34 :: t =>
      (match parseStringRest t with
       | some (k, r) =>
         (match skipWs r with
          | 58 :: r2 =>
            (match parseValue fuel (skipWs r2) with
             | some (v, r3) => parseMembersRest fuel [(k, v)] r3
             | none => none)
          | _ => none)
       | none => none)
    | _ => none

def parseMembersRest : Nat → List (List Nat × JsonVal) → List Nat →
    Option (JsonVal × List Nat)
  | 0, _, _ => none
  | fuel + 1, acc, cs =>
    match skipWs cs with
    | 125 :: r => some (.obj acc.reverse, r)
    | 44 :: r =>
      (match skipWs r with
       | 34 :: t =>
         (match parseStringRest t with
          | some (k, r2) =>
            (match skipWs r2 with
             | 58 :: r3 =>
               (match parseValue fuel (skipWs r3) with
                | some (v, r4) => parseMembersRest fuel ((k, v) :: acc) r4
                | none => none)
             | _ => none)
          | none => none)
       | _ => none)
    | _ => none

end

/-- `json.loads` on the decoded code points: one JSON document, possibly
surrounded by whitespace, with nothing after it.  (CPython's
`RecursionError` on documents nested deeper than the interpreter's
recursion limit is a stack resource limit, not part of the JSON grammar,
and is not modelled.) -/
def jsonLoads (cs : List Nat) : Option JsonVal :=
  match parseValue (4 * cs.length + 16) (skipWs cs) with
  | some (v, r) => if skipWs r = [] then some v else none
  | none => none

/-! ### Python container operations used on the parsed payload -/

def startsWithL : List Nat → List Nat → Bool
  | [], _ => true
  | _ :: _, [] => false
  | a :: s, b :: t => a == b && startsWithL s t

/-- Does `needle` occur as a contiguous substring of `hay`? -/
def containsSub : List Nat → List Nat → Bool
  | needle, [] => needle.isEmpty
  | needle, c :: t => startsWithL needle (c :: t) || containsSub needle t

/-- Python's `key in data` on a parsed JSON value: key membership for dicts,
element equality for lists, substring for strings, and `TypeError`
(modelled as `.error ()`) for numbers, booleans and `None`. -/
def containsKey (key : String) (v : JsonVal) : Except Unit Bool :=
  match v with
  | .obj kvs => .ok (kvs.any (fun kv => kv.1 == strCodes key))
  | .arr xs => .ok (xs.any (fun x => match x with | .str s => s == strCodes key | _ => false))
  | .str s => .ok (containsSub (strCodes key) s)
  | _ => .error ()

/-- Python dict lookup (duplicate keys in the JSON source: the last wins). -/
def lookupLast (kvs : List (List Nat × JsonVal)) (k : String) : Option JsonVal :=
  kvs.foldl (fun acc kv => if kv.1 == strCodes k then some kv.2 else acc) none

/-- Python's `data['data']`: dict lookup, `TypeError`/`KeyError` otherwise. -/
def getItem (v : JsonVal) (k : String) : Except Unit JsonVal :=
  match v with
  | .obj kvs =>
    (match lookupLast kvs k with
     | some x => .ok x
     | none => .error ())
  | _ => .error ()

/-! ### The event handler and the webhook endpoint -/

/-- `process_webhook_event` from the server.  For the three known event types
it calls `data.get(...)`, which raises `AttributeError` (modelled as
`.error ()`) when `data` is not a dict; unknown event types are only
logged. -/
def process_webhook_event (event : String) (data : JsonVal) (_delivery_id : String) :
    Except Unit Unit :=
  if event == "clip.submitted" || event == "clip.approved" || event == "clip.rejected" then
    match data with
    | .obj _ => .ok ()
    | _ => .error ()
  else .ok ()

/-- The guarded dispatch block (`try: process_webhook_event(event,
data['data'], delivery_id) except Exception: ...`): evaluating
`data['data']` happens inside the `try`, so its exceptions are also
swallowed by the caller. -/
def tryDispatch (event : String) (data : JsonVal) (delivery_id : String) : Except Unit Unit := do
  let payload_data ← getItem data "data"
  process_webhook_event event payload_data delivery_id

/-- The payload-structure check
(`if 'event' not in data or 'timestamp' not in data or 'data' not in data`),
with Python's left-to-right short-circuit evaluation. -/
def structCheck (data : JsonVal) : Except Unit Bool := do
  let hasEvent ← containsKey "event" data
  if !hasEvent then return false
  let hasTimestamp ← containsKey "timestamp" data
  if !hasTimestamp then return false
  containsKey "data" data

/-- An inbound `POST /webhook` request: raw body bytes plus the four headers
the handler reads (`none` = header absent; `request.headers.get(h, '')`
turns an absent header into `''`). -/
structure Request where
  payload : List Nat
  signature : Option String
  event : Option String
  deliveryId : Option String
  replay : Option String

/-- Which JSON body the server answers with (the discriminating fields of the
`jsonify(...)` calls, plus the framework's 500 page for uncaught
exceptions). -/
inductive RespBody where
  | missingHeaders
  | invalidSignature
  | verificationError
  | alreadyProcessed
  | invalidJson
  | invalidStructure
  | success
  | internalError
deriving DecidableEq

/-- Pipeline components, in the order the handler may run them. -/
inductive PipeEv where
  | verifier
  | ledgerCheck
  | validator
  | ledgerRecord
  | dispatcher
deriving DecidableEq

deriving instance DecidableEq for Except

structure WebhookResult where
  status : Nat
  body : RespBody
  state : List String
  events : List PipeEv
  handler : Option (Except Unit Unit)
deriving DecidableEq

/-- Lines 124–131 of the server: `processed_deliveries.add(delivery_id)`
followed by the cleanup that drops `list(processed_deliveries)[:100]` when
the set holds more than 1000 entries.  The ledger state is the set's
elements in insertion order; `sel` supplies the arbitrary iteration order
`list(...)` enumerates them in. -/
def recordStep (sel : List String → List String) (st : List String) (delivery_id : String) :
    List String :=
  let st1 := st ++ [delivery_id]
  if 1000 < st1.length then
    let toDelete := (sel st1).take 100
    st1.filter (fun x => !(toDelete.contains x))
  else st1

/-- A set iteration order is admissible when it enumerates exactly the set's
elements. -/
def Admissible (sel : List String → List String) : Prop :=
  ∀ l, List.Perm (sel l) l

/-- The `POST /webhook` handler (lines 71–150 of the server). -/
def webhook (sel : List String → List String) (secret : String) (st : List String)
    (req : Request) : WebhookResult :=
  let signature := req.signature.getD ""
  let event := req.event.getD ""
  let delivery_id := req.deliveryId.getD ""
  if signature == "" || event == "" || delivery_id == "" then
    ⟨400, .missingHeaders, st, [], none⟩
  else
    match verify_webhook_signature req.payload signature secret with
    | .error _ => ⟨500, .verificationError, st, [.verifier], none⟩
    | .ok false => ⟨401, .invalidSignature, st, [.verifier], none⟩
    | .ok true =>
      if st.contains delivery_id then
        ⟨200, .alreadyProcessed, st, [.verifier, .ledgerCheck], none⟩
      else
        match pyDecodeBytes req.payload with
        | none => ⟨500, .internalError, st, [.verifier, .ledgerCheck, .validator], none⟩
        | some chars =>
          match jsonLoads chars with
          | none => ⟨400, .invalidJson, st, [.verifier, .ledgerCheck, .validator], none⟩
          | some data =>
            match structCheck data with
            | .error _ => ⟨500, .internalError, st, [.verifier, .ledgerCheck, .validator], none⟩
            | .ok false => ⟨400, .invalidStructure, st, [.verifier, .ledgerCheck, .validator], none⟩
            | .ok true =>
              let st2 := recordStep sel st delivery_id
              let outcome := tryDispatch event data delivery_id
              ⟨200, .success, st2,
               [.verifier, .ledgerCheck, .validator, .ledgerRecord, .dispatcher], some outcome⟩

/-- The ledger state after a sequence of requests, starting from the empty
ledger the process boots with. -/
def runState (sel : List String → List String) (secret : String) (reqs : List Request) :
    List String :=
  reqs.foldl (fun st r => (webhook sel secret st r).state) []

/-- The ledger-state effect of one valid, structurally well-formed delivery:
the duplicate check of line 108 followed by the record-and-clean-up of
lines 124–131. -/
def ledgerStep (sel : List String → List String) (st : List String) (d : String) : List String :=
  if st.contains d then st else recordStep sel st d

/-- The ledger-state effect of a sequence of valid, structurally well-formed
deliveries, iterated from the empty ledger the process boots with. -/
def processRun (sel : List String → List String) (ids : List String) : List String :=
  ids.foldl (ledgerStep sel) []

/-- ASCII text as raw request-body bytes. -/
def strBytes (s : String) : List Nat := s.data.map Char.toNat

/-- Normalise a header that is present with the empty string to an absent
header. -/
def omitEmpty (o : Option String) : Option String := if o = some "" then none else o

/-- Modelled from the spec: «These compose linearly per request:
Verifier → Validator → Ledger (check-and-record) → Dispatcher» — whenever
the Delivery Ledger is consulted, the Validator has already run. -/
def componentOrderSpec (tr : List PipeEv) : Prop :=
  PipeEv.ledgerCheck ∈ tr → PipeEv.validator ∈ tr.takeWhile (fun e => !(e == PipeEv.ledgerCheck))

instance (tr : List PipeEv) : Decidable (componentOrderSpec tr) := by
  unfold componentOrderSpec; infer_instance

/-! ### Basic facts about digests and hex encoding -/

theorem sha256_length (m : List Nat) : (sha256 m).length = 32 := rfl

theorem hmacSha256_length (k m : List Nat) : (hmacSha256 k m).length = 32 := rfl

theorem word4_mem_lt (w : Nat) : ∀ b ∈ word4 w, b < 256 := by
  intro b hb
  simp only [word4, List.mem_cons, List.not_mem_nil, or_false] at hb
  rcases hb with h | h | h | h <;> subst h <;> omega

theorem sha256_mem_lt (m : List Nat) : ∀ b ∈ sha256 m, b < 256 := by
  intro b hb
  simp only [sha256, List.mem_append, or_assoc] at hb
  rcases hb with h | h | h | h | h | h | h | h <;> exact word4_mem_lt _ _ h

theorem hmacSha256_mem_lt (k m : List Nat) : ∀ b ∈ hmacSha256 k m, b < 256 :=
  sha256_mem_lt _

theorem hexDigitChar_ascii (n : Nat) : (hexDigitChar n).toNat < 128 := by
  by_cases h : n < 16
  · interval_cases n <;> decide
  · unfold hexDigitChar
    rw [List.getD_eq_default]
    · decide
    · simpa using Nat.le_of_not_lt h

theorem hexOfBytes_ascii (bs : List Nat) : strIsAscii (hexOfBytes bs) = true := by
  induction bs with
  | nil => rfl
  | cons b t ih =>
    simp only [strIsAscii, hexOfBytes, List.foldr_cons, List.all_cons, Bool.and_eq_true,
      decide_eq_true_eq] at ih ⊢
    exact ⟨hexDigitChar_ascii _, hexDigitChar_ascii _, ih⟩

theorem hexOfBytes_length (bs : List Nat) : (hexOfBytes bs).length = 2 * bs.length := by
  induction bs with
  | nil => rfl
  | cons b t ih =>
    simp only [hexOfBytes, String.length, List.foldr_cons, List.length_cons] at ih ⊢
    omega

theorem hexhmac_length (b : List Nat) (s : String) : (hexhmac b s).length = 64 := by
  unfold hexhmac
  rw [hexOfBytes_length, hmacSha256_length]

theorem hexhmac_ne_empty (b : List Nat) (s : String) : (hexhmac b s) ≠ "" := by
  intro h
  have hl := hexhmac_length b s
  rw [h] at hl
  simp [String.length] at hl

theorem hexhmac_ascii (b : List Nat) (s : String) : strIsAscii (hexhmac b s) = true :=
  hexOfBytes_ascii _

/-- A correctly computed signature always verifies. -/
theorem verify_self (p : List Nat) (s : String) :
    verify_webhook_signature p (hexhmac p s) s = .ok true := by
  simp only [verify_webhook_signature, compareDigest, hexhmac, hexOfBytes_ascii,
    Bool.and_self, if_true, beq_self_eq_true]

/-- Verification accepts a payload against a provided signature exactly when
the payload's own hex HMAC digest equals that signature. -/
theorem verify_eq_ok_iff (p2 p : List Nat) (s : String) :
    verify_webhook_signature p2 (hexhmac p s) s = .ok true ↔ hexhmac p2 s = hexhmac p s := by
  simp only [verify_webhook_signature, compareDigest, hexhmac, hexOfBytes_ascii,
    Bool.and_self, if_true, Except.ok.injEq, beq_iff_eq]
  constructor
  · intro h; exact h.symm
  · intro h; exact h.symm

/-- An ASCII signature whose length is not 64 never verifies. -/
theorem verify_of_bad_length (p : List Nat) (sig s : String)
    (hA : strIsAscii sig = true) (hL : sig.length ≠ 64) :
    verify_webhook_signature p sig s = .ok false := by
  simp only [verify_webhook_signature, compareDigest, hexOfBytes_ascii, hA,
    Bool.and_self, if_true, Except.ok.injEq]
  rw [beq_eq_false_iff_ne]
  intro h
  apply hL
  rw [h, hexOfBytes_length, hmacSha256_length]

/-! ### Digest collisions exist (pigeonhole) -/

/-- A byte list read as a base-256 numeral (little-endian positional code). -/
def digestCode (l : List Nat) : Nat := l.foldr (fun b acc => b + 256 * acc) 0

theorem digestCode_lt (l : List Nat) (hb : ∀ b ∈ l, b < 256) :
    digestCode l < 256 ^ l.length := by
  induction l with
  | nil => simp [digestCode]
  | cons b t ih =>
    have hbt : ∀ x ∈ t, x < 256 := fun x hx => hb x (List.mem_cons_of_mem _ hx)
    have h1 : digestCode t < 256 ^ t.length := ih hbt
    have h2 : b < 256 := hb b (List.mem_cons_self _ _)
    simp only [digestCode, List.foldr_cons, List.length_cons, pow_succ] at h1 ⊢
    calc b + 256 * List.foldr (fun b acc => b + 256 * acc) 0 t
        ≤ 255 + 256 * List.foldr (fun b acc => b + 256 * acc) 0 t := by omega
      _ < 256 * (List.foldr (fun b acc => b + 256 * acc) 0 t + 1) := by omega
      _ ≤ 256 * 256 ^ t.length := by
          have : List.foldr (fun b acc => b + 256 * acc) 0 t + 1 ≤ 256 ^ t.length := h1
          exact Nat.mul_le_mul_left _ this
      _ = 256 ^ t.length * 256 := by ring

theorem digestCode_inj (l1 l2 : List Nat) (hlen : l1.length = l2.length)
    (h1 : ∀ b ∈ l1, b < 256) (h2 : ∀ b ∈ l2, b < 256)
    (heq : digestCode l1 = digestCode l2) : l1 = l2 := by
  induction l1 generalizing l2 with
  | nil =>
    cases l2 with
    | nil => rfl
    | cons b t => simp at hlen
  | cons b t ih =>
    cases l2 with
    | nil => simp at hlen
    | cons c u =>
      simp only [List.length_cons, Nat.succ.injEq] at hlen
      have hb : b < 256 := h1 b (List.mem_cons_self _ _)
      have hc : c < 256 := h2 c (List.mem_cons_self _ _)
      simp only [digestCode, List.foldr_cons] at heq
      have hbc : b = c ∧
          List.foldr (fun b acc => b + 256 * acc) 0 t =
          List.foldr (fun b acc => b + 256 * acc) 0 u := by
        constructor <;> omega
      have ht : t = u :=
        ih u hlen (fun x hx => h1 x (List.mem_cons_of_mem _ hx))
          (fun x hx => h2 x (List.mem_cons_of_mem _ hx)) hbc.2
      rw [hbc.1, ht]

/-- Two distinct bodies whose HMAC digests under a fixed secret coincide —
they exist by the pigeonhole principle, since digests have only 32 bytes. -/
theorem hmac_collision (s : String) :
    ∃ b bb : List Nat, b ≠ bb ∧ hexhmac b s = hexhmac bb s := by
  have hlt : ∀ n : Nat, digestCode (hmacSha256 (utf8Encode s) (List.replicate n 0)) <
      256 ^ 32 := by
    intro n
    have := digestCode_lt (hmacSha256 (utf8Encode s) (List.replicate n 0))
      (hmacSha256_mem_lt _ _)
    rwa [hmacSha256_length] at this
  set f : Nat → Fin (256 ^ 32) :=
    fun n => ⟨digestCode (hmacSha256 (utf8Encode s) (List.replicate n 0)), hlt n⟩ with hf
  obtain ⟨m, n, hmn, hfeq⟩ := Finite.exists_ne_map_eq_of_infinite f
  refine ⟨List.replicate m 0, List.replicate n 0, ?_, ?_⟩
  · intro h
    apply hmn
    have := congrArg List.length h
    simpa using this
  · have hcode : digestCode (hmacSha256 (utf8Encode s) (List.replicate m 0)) =
        digestCode (hmacSha256 (utf8Encode s) (List.replicate n 0)) := by
      have := congrArg Fin.val hfeq
      simpa [hf] using this
    have hraw : hmacSha256 (utf8Encode s) (List.replicate m 0) =
        hmacSha256 (utf8Encode s) (List.replicate n 0) := by
      apply digestCode_inj _ _ _ (hmacSha256_mem_lt _ _) (hmacSha256_mem_lt _ _) hcode
      rw [hmacSha256_length, hmacSha256_length]
    unfold hexhmac
    rw [hraw]

/-! ### Shape lemmas for the webhook pipeline -/

theorem contains_eq_true_iff (l : List String) (a : String) :
    l.contains a = true ↔ a ∈ l := by
  simp [List.contains, List.elem_iff]

theorem contains_eq_false_iff (l : List String) (a : String) :
    l.contains a = false ↔ a ∉ l := by
  rw [← Bool.not_eq_true, contains_eq_true_iff]

/-- The missing-headers branch: any request with an absent (or empty) header
is rejected before anything else runs. -/
theorem webhook_missingHeaders (sel : List String → List String) (secret : String)
    (st : List String) (req : Request)
    (h : req.signature.getD "" = "" ∨ req.event.getD "" = "" ∨ req.deliveryId.getD "" = "") :
    webhook sel secret st req = ⟨400, .missingHeaders, st, [], none⟩ := by
  unfold webhook
  have hcond : (req.signature.getD "" == "" || req.event.getD "" == "" ||
      req.deliveryId.getD "" == "") = true := by
    rcases h with h | h | h <;> simp [h]
  rw [if_pos hcond]

/-- The invalid-signature branch. -/
theorem webhook_badSig (sel : List String → List String) (secret : String)
    (st : List String) (req : Request) (sig ev d : String)
    (h1 : req.signature = some sig) (h2 : req.event = some ev) (h3 : req.deliveryId = some d)
    (hsig : sig ≠ "") (hev : ev ≠ "") (hd : d ≠ "")
    (hver : verify_webhook_signature req.payload sig secret = .ok false) :
    webhook sel secret st req = ⟨401, .invalidSignature, st, [.verifier], none⟩ := by
  unfold webhook
  rw [h1, h2, h3]
  simp only [Option.getD_some]
  have hcond : (sig == "" || ev == "" || d == "") = false := by
    simp [hsig, hev, hd]
  rw [if_neg (by simp [hcond]), hver]

/-- The duplicate-delivery branch: the ledger is consulted right after the
signature check, before the body is parsed. -/
theorem webhook_dup (sel : List String → List String) (secret : String)
    (st : List String) (req : Request) (sig ev d : String)
    (h1 : req.signature = some sig) (h2 : req.event = some ev) (h3 : req.deliveryId = some d)
    (hsig : sig ≠ "") (hev : ev ≠ "") (hd : d ≠ "")
    (hver : verify_webhook_signature req.payload sig secret = .ok true)
    (hdup : st.contains d = true) :
    webhook sel secret st req = ⟨200, .alreadyProcessed, st, [.verifier, .ledgerCheck], none⟩ := by
  unfold webhook
  rw [h1, h2, h3]
  simp only [Option.getD_some]
  have hcond : (sig == "" || ev == "" || d == "") = false := by
    simp [hsig, hev, hd]
  rw [if_neg (by simp [hcond]), hver]
  simp only [hdup, if_true]

/-- The malformed-JSON branch (a caught `json.JSONDecodeError`). -/
theorem webhook_badJson (sel : List String → List String) (secret : String)
    (st : List String) (req : Request) (sig ev d : String) (cs : List Nat)
    (h1 : req.signature = some sig) (h2 : req.event = some ev) (h3 : req.deliveryId = some d)
    (hsig : sig ≠ "") (hev : ev ≠ "") (hd : d ≠ "")
    (hver : verify_webhook_signature req.payload sig secret = .ok true)
    (hdup : st.contains d = false)
    (hdec : pyDecodeBytes req.payload = some cs)
    (hparse : jsonLoads cs = none) :
    webhook sel secret st req =
      ⟨400, .invalidJson, st, [.verifier, .ledgerCheck, .validator], none⟩ := by
  unfold webhook
  rw [h1, h2, h3]
  simp only [Option.getD_some]
  have hcond : (sig == "" || ev == "" || d == "") = false := by
    simp [hsig, hev, hd]
  rw [if_neg (by simp [hcond]), hver]
  simp only [hdup, Bool.false_eq_true, if_false, hdec, hparse]

/-- The branch where the structure check itself raises (`'event' in data` on
a number, boolean or `None` body): the `TypeError` is uncaught and the
framework answers 500. -/
theorem webhook_structError (sel : List String → List String) (secret : String)
    (st : List String) (req : Request) (sig ev d : String) (cs : List Nat) (data : JsonVal)
    (h1 : req.signature = some sig) (h2 : req.event = some ev) (h3 : req.deliveryId = some d)
    (hsig : sig ≠ "") (hev : ev ≠ "") (hd : d ≠ "")
    (hver : verify_webhook_signature req.payload sig secret = .ok true)
    (hdup : st.contains d = false)
    (hdec : pyDecodeBytes req.payload = some cs)
    (hparse : jsonLoads cs = some data)
    (hstruct : structCheck data = .error ()) :
    webhook sel secret st req =
      ⟨500, .internalError, st, [.verifier, .ledgerCheck, .validator], none⟩ := by
  unfold webhook
  rw [h1, h2, h3]
  simp only [Option.getD_some]
  have hcond : (sig == "" || ev == "" || d == "") = false := by
    simp [hsig, hev, hd]
  rw [if_neg (by simp [hcond]), hver]
  simp only [hdup, Bool.false_eq_true, if_false, hdec, hparse, hstruct]

/-- The missing-envelope-fields branch. -/
theorem webhook_badStruct (sel : List String → List String) (secret : String)
    (st : List String) (req : Request) (sig ev d : String) (cs : List Nat) (data : JsonVal)
    (h1 : req.signature = some sig) (h2 : req.event = some ev) (h3 : req.deliveryId = some d)
    (hsig : sig ≠ "") (hev : ev ≠ "") (hd : d ≠ "")
    (hver : verify_webhook_signature req.payload sig secret = .ok true)
    (hdup : st.contains d = false)
    (hdec : pyDecodeBytes req.payload = some cs)
    (hparse : jsonLoads cs = some data)
    (hstruct : structCheck data = .ok false) :
    webhook sel secret st req =
      ⟨400, .invalidStructure, st, [.verifier, .ledgerCheck, .validator], none⟩ := by
  unfold webhook
  rw [h1, h2, h3]
  simp only [Option.getD_some]
  have hcond : (sig == "" || ev == "" || d == "") = false := by
    simp [hsig, hev, hd]
  rw [if_neg (by simp [hcond]), hver]
  simp only [hdup, Bool.false_eq_true, if_false, hdec, hparse, hstruct]

/-- The success path: a fresh, verified, well-formed delivery is recorded and
dispatched; whatever the dispatch block does, the response is a 200
success. -/
theorem webhook_success (sel : List String → List String) (secret : String)
    (st : List String) (req : Request) (sig ev d : String) (cs : List Nat) (data : JsonVal)
    (h1 : req.signature = some sig) (h2 : req.event = some ev) (h3 : req.deliveryId = some d)
    (hsig : sig ≠ "") (hev : ev ≠ "") (hd : d ≠ "")
    (hver : verify_webhook_signature req.payload sig secret = .ok true)
    (hdup : st.contains d = false)
    (hdec : pyDecodeBytes req.payload = some cs)
    (hparse : jsonLoads cs = some data)
    (hstruct : structCheck data = .ok true) :
    webhook sel secret st req =
      ⟨200, .success, recordStep sel st d,
       [.verifier, .ledgerCheck, .validator, .ledgerRecord, .dispatcher],
       some (tryDispatch ev data d)⟩ := by
  unfold webhook
  rw [h1, h2, h3]
  simp only [Option.getD_some]
  have hcond : (sig == "" || ev == "" || d == "") = false := by
    simp [hsig, hev, hd]
  rw [if_neg (by simp [hcond]), hver]
  simp only [hdup, Bool.false_eq_true, if_false, hdec, hparse, hstruct]

/-! ### Ledger lemmas -/

/-- Under any admissible iteration order, one record step keeps the ledger at
or below 1000 entries. -/
theorem recordStep_length_le (sel : List String → List String) (hsel : Admissible sel)
    (st : List String) (d : String) (h : st.length ≤ 1000) :
    (recordStep sel st d).length ≤ 1000 := by
  simp only [recordStep]
  split
  case isFalse hle =>
    simp only [List.length_append, List.length_cons, List.length_nil] at hle ⊢
    omega
  case isTrue hgt =>
    have hlen1 : (st ++ [d]).length = st.length + 1 := by simp
    have hsellen : (sel (st ++ [d])).length = st.length + 1 := by
      rw [(hsel (st ++ [d])).length_eq, hlen1]
    obtain ⟨y, ys, hsel_eq⟩ : ∃ y ys, sel (st ++ [d]) = y :: ys := by
      cases hse : sel (st ++ [d]) with
      | nil => rw [hse] at hsellen; simp at hsellen
      | cons y ys => exact ⟨y, ys, rfl⟩
    have hy_mem_toDel : y ∈ (sel (st ++ [d])).take 100 := by
      rw [hsel_eq]
      simp [List.take_cons]
    have hy_mem : y ∈ st ++ [d] := by
      have : y ∈ sel (st ++ [d]) := List.take_subset _ _ hy_mem_toDel
      exact (hsel (st ++ [d])).mem_iff.mp this
    have hlt : ((st ++ [d]).filter
        (fun x => !(((sel (st ++ [d])).take 100).contains x))).length < (st ++ [d]).length := by
      rw [List.length_filter_lt_length_iff_exists]
      refine ⟨y, hy_mem, ?_⟩
      have hc : (List.take 100 (sel (st ++ [d]))).contains y = true :=
        (contains_eq_true_iff _ _).mpr hy_mem_toDel
      show ¬(!(List.take 100 (sel (st ++ [d]))).contains y) = true
      simp only [Bool.not_eq_true', Bool.not_eq_false]
      exact hc
    rw [hlen1] at hlt
    omega

/-- After any single request the ledger stays at or below 1000 entries. -/
theorem webhook_state_cases (sel : List String → List String) (secret : String)
    (st : List String) (req : Request) :
    (webhook sel secret st req).state = st ∨
    (webhook sel secret st req).state = recordStep sel st (req.deliveryId.getD "") := by
  simp only [webhook]
  repeat' split
  all_goals first
    | (left; rfl)
    | (right; rfl)

theorem nodup_concat_of_not_mem (st : List String) (x : String)
    (hnd : st.Nodup) (hx : x ∉ st) : (st ++ [x]).Nodup := by
  rw [List.nodup_append]
  refine ⟨hnd, List.nodup_singleton x, ?_⟩
  intro a ha hax
  rw [List.mem_singleton] at hax
  exact hx (hax ▸ ha)

/-- With a newest-first iteration order, one ledger step never evicts the
head (oldest entry) of the ledger, and preserves distinctness and the size
bound. -/
theorem ledgerStep_reverse_inv (i0 x : String) (st : List String)
    (hh : st.head? = some i0) (hnd : st.Nodup) (hlen : st.length ≤ 1000) :
    (ledgerStep List.reverse st x).head? = some i0 ∧
    (ledgerStep List.reverse st x).Nodup ∧
    (ledgerStep List.reverse st x).length ≤ 1000 := by
  unfold ledgerStep
  split
  case isTrue => exact ⟨hh, hnd, hlen⟩
  case isFalse hcon =>
    have hx : x ∉ st := by
      rw [← contains_eq_false_iff]
      exact Bool.not_eq_true _ ▸ Bool.of_not_eq_true hcon
    obtain ⟨t, rfl⟩ : ∃ t, st = i0 :: t := by
      cases st with
      | nil => cases hh
      | cons a t =>
        rw [List.head?_cons, Option.some.injEq] at hh
        exact ⟨t, by rw [hh]⟩
    have hi0t : i0 ∉ t := (List.nodup_cons.mp hnd).1
    have hxne : x ≠ i0 := fun hcontra => hx (hcontra ▸ List.mem_cons_self _ _)
    have hxt : x ∉ t := fun hcontra => hx (List.mem_cons_of_mem _ hcontra)
    have hnd1 : ((i0 :: t) ++ [x]).Nodup := nodup_concat_of_not_mem _ _ hnd hx
    simp only [recordStep, List.cons_append]
    split
    case isFalse hle =>
      refine ⟨rfl, ?_, ?_⟩
      · rw [← List.cons_append]; exact hnd1
      · simp only [List.length_cons, List.length_append, List.length_nil, Nat.not_lt] at hle ⊢
        omega
    case isTrue hgt =>
      have ht999 : t.length = 999 := by
        have h1 : t.length + 1 ≤ 1000 := by simpa using hlen
        simp only [List.length_cons, List.length_append, List.length_nil] at hgt
        omega
      have htake : List.take 100 ((i0 :: (t ++ [x])).reverse) =
          List.take 100 ((t ++ [x]).reverse) := by
        rw [List.reverse_cons, List.take_append_eq_append_take]
        have h0 : 100 - ((t ++ [x]).reverse).length = 0 := by
          simp [ht999]
        rw [h0]
        simp
      have hi0_not_toDel : i0 ∉ List.take 100 ((i0 :: (t ++ [x])).reverse) := by
        rw [htake]
        intro hmem
        have hm2 : i0 ∈ (t ++ [x]).reverse := List.take_subset _ _ hmem
        rw [List.mem_reverse, List.mem_append, List.mem_singleton] at hm2
        rcases hm2 with h | h
        · exact hi0t h
        · exact hxne h.symm
      have hp_i0 : (!(List.take 100 ((i0 :: (t ++ [x])).reverse)).contains i0) = true := by
        have hc0 : (List.take 100 ((i0 :: (t ++ [x])).reverse)).contains i0 = false :=
          (contains_eq_false_iff _ _).mpr hi0_not_toDel
        rw [hc0]
        rfl
      have hfc : List.filter
          (fun z => !(List.take 100 ((i0 :: (t ++ [x])).reverse)).contains z)
          (i0 :: (t ++ [x])) =
          i0 :: List.filter
            (fun z => !(List.take 100 ((i0 :: (t ++ [x])).reverse)).contains z) (t ++ [x]) :=
        List.filter_cons_of_pos hp_i0
      rw [hfc]
      refine ⟨rfl, ?_, ?_⟩
      · rw [← hfc]
        exact List.Nodup.filter _ hnd1
      · have htoDel_len : (List.take 100 ((i0 :: (t ++ [x])).reverse)).length = 100 := by
          rw [htake, List.length_take]
          simp [ht999]
        obtain ⟨y, ys, hy⟩ : ∃ y ys,
            List.take 100 ((i0 :: (t ++ [x])).reverse) = y :: ys := by
          cases hcase : List.take 100 ((i0 :: (t ++ [x])).reverse) with
          | nil => rw [hcase] at htoDel_len; cases htoDel_len
          | cons y ys => exact ⟨y, ys, rfl⟩
        have hy_mem_toDel : y ∈ List.take 100 ((i0 :: (t ++ [x])).reverse) := by
          rw [hy]; exact List.mem_cons_self _ _
        have hy_mem : y ∈ i0 :: (t ++ [x]) := by
          have h1 : y ∈ (i0 :: (t ++ [x])).reverse := List.take_subset _ _ hy_mem_toDel
          rwa [List.mem_reverse] at h1
        have hlt : ((i0 :: (t ++ [x])).filter
            (fun z => !(List.take 100 ((i0 :: (t ++ [x])).reverse)).contains z)).length <
            (i0 :: (t ++ [x])).length := by
          rw [List.length_filter_lt_length_iff_exists]
          refine ⟨y, hy_mem, ?_⟩
          have hcy : (List.take 100 ((i0 :: (t ++ [x])).reverse)).contains y = true :=
            (contains_eq_true_iff _ _).mpr hy_mem_toDel
          simp only [Bool.not_eq_true', Bool.not_eq_false]
          exact hcy
        have hlen1 : (i0 :: (t ++ [x])).length = 1001 := by
          simp [ht999]
        rw [hfc, hlen1] at hlt
        simp only [List.length_cons] at hlt ⊢
        omega

theorem ledgerRun_reverse_inv (i0 : String) (ids : List String) :
    ∀ st : List String, st.head? = some i0 → st.Nodup → st.length ≤ 1000 →
      (ids.foldl (ledgerStep List.reverse) st).head? = some i0 ∧
      (ids.foldl (ledgerStep List.reverse) st).Nodup ∧
      (ids.foldl (ledgerStep List.reverse) st).length ≤ 1000 := by
  induction ids with
  | nil => intro st hh hnd hlen; exact ⟨hh, hnd, hlen⟩
  | cons x rest ih =>
    intro st hh hnd hlen
    rw [List.foldl_cons]
    obtain ⟨h1, h2, h3⟩ := ledgerStep_reverse_inv i0 x st hh hnd hlen
    exact ih _ h1 h2 h3

/-- The adversarial-but-admissible iteration order that lists a chosen
identifier first. -/
def firstSel (d : String) : List String → List String :=
  fun l => if l.contains d then d :: l.erase d else l

theorem firstSel_admissible (d : String) : Admissible (firstSel d) := by
  intro l
  unfold firstSel
  split
  case isTrue h =>
    exact (List.perm_cons_erase ((contains_eq_true_iff _ _).mp h)).symm
  case isFalse h =>
    exact List.Perm.refl l

/-- When the ledger is exactly at capacity and the iteration order lists the
just-added identifier first, the cleanup evicts that very identifier. -/
theorem recordStep_firstSel_evicts (st : List String) (d : String)
    (hlen : st.length = 1000) (hd : d ∉ st) :
    (recordStep (firstSel d) st d).contains d = false := by
  simp only [recordStep]
  have hgt : 1000 < (st ++ [d]).length := by simp [hlen]
  rw [if_pos hgt]
  have hmem : (st ++ [d]).contains d = true := by
    rw [contains_eq_true_iff]
    simp
  have hsel_eq : firstSel d (st ++ [d]) = d :: st := by
    unfold firstSel
    rw [if_pos hmem]
    have herase : (st ++ [d]).erase d = st := by
      rw [List.erase_append_right _ hd]
      simp [List.erase_cons_head]
    rw [herase]
  rw [hsel_eq]
  have hd_toDel : (List.take 100 (d :: st)).contains d = true := by
    rw [contains_eq_true_iff]
    have : List.take 100 (d :: st) = d :: List.take 99 st := List.take_succ_cons
    rw [this]
    exact List.mem_cons_self _ _
  rw [contains_eq_false_iff]
  intro hmem2
  rw [List.mem_filter] at hmem2
  rw [hd_toDel] at hmem2
  cases hmem2.2

theorem omitEmpty_getD (o : Option String) : (omitEmpty o).getD "" = o.getD "" := by
  unfold omitEmpty
  split
  case isTrue h => rw [h]; rfl
  case isFalse h => rfl

/-- The webhook handler reads a request only through its payload and the
coalesced (`headers.get(h, '')`) header values. -/
theorem webhook_congr (sel : List String → List String) (secret : String) (st : List String)
    (r1 r2 : Request)
    (hp : r1.payload = r2.payload)
    (hs : r1.signature.getD "" = r2.signature.getD "")
    (he : r1.event.getD "" = r2.event.getD "")
    (hd : r1.deliveryId.getD "" = r2.deliveryId.getD "") :
    webhook sel secret st r1 = webhook sel secret st r2 := by
  unfold webhook
  rw [hp, hs, he, hd]

/-- A signature that verifies is exactly the expected hex digest. -/
theorem verify_ok_true_imp (p : List Nat) (sig s : String)
    (h : verify_webhook_signature p sig s = .ok true) : sig = hexhmac p s := by
  simp only [verify_webhook_signature, compareDigest] at h
  unfold hexhmac
  split at h
  · rw [Except.ok.injEq] at h
    exact eq_of_beq h
  · cases h

theorem verify_ok_true_sig_ne_empty (p : List Nat) (sig s : String)
    (h : verify_webhook_signature p sig s = .ok true) : sig ≠ "" := by
  rw [verify_ok_true_imp p sig s h]
  exact hexhmac_ne_empty p s

/-! ### Claim theorems -/

/-- C2 (amended): verification of a body `b` against its own hex HMAC-SHA256
signature always succeeds, and verification of any body `bb` against the
signature of `b` succeeds exactly when the two bodies' hex HMAC digests
coincide — so tamper detection holds precisely for bodies whose digests
differ (by the pigeonhole principle, unconditional tamper detection for
every `bb ≠ b` is impossible; see the counterexample). -/
theorem c2_verify_accepts_exactly_digest_matches :
    ∀ (b bb : List Nat) (s : String),
      verify_webhook_signature b (hexhmac b s) s = .ok true ∧
      (verify_webhook_signature bb (hexhmac b s) s = .ok true ↔ hexhmac bb s = hexhmac b s) :=
  fun b bb s => ⟨verify_self b s, verify_eq_ok_iff bb b s⟩

/-- C2 (counterexample): the claim «for every body `bb` different from `b`,
verification of `bb` against `b`'s signature returns false» is false: some
pair of distinct bodies shares one HMAC digest, and the second body then
verifies against the first one's signature. -/
theorem c2_counterexample :
    ∃ (s : String) (b bb : List Nat), b ≠ bb ∧
      verify_webhook_signature bb (hexhmac b s) s = .ok true := by
  obtain ⟨b, bb, hne, heq⟩ := hmac_collision "k"
  exact ⟨"k", b, bb, hne, (verify_eq_ok_iff bb b "k").mpr heq.symm⟩

/-- C4: with a newest-first set iteration order — a legitimate possibility,
since `list(processed_deliveries)` enumerates a Python `set` in arbitrary
order — the first delivery identifier of a run is never evicted, however
many deliveries follow.  In particular, after 1500 sequential unique
deliveries the 1st identifier is still recorded, contradicting the claimed
strict-FIFO eviction. -/
theorem c4_first_id_never_evicted_newest_first :
    ∀ (i0 : String) (ids : List String), i0 ∈ processRun List.reverse (i0 :: ids) := by
  intro i0 ids
  unfold processRun
  rw [List.foldl_cons]
  have hstep : ledgerStep List.reverse [] i0 = [i0] := rfl
  rw [hstep]
  obtain ⟨hh, _, _⟩ := ledgerRun_reverse_inv i0 ids [i0] rfl (List.nodup_singleton i0)
    (by simp only [List.length_singleton]; omega)
  exact List.mem_of_mem_head? (by rw [hh]; rfl)

/-- C5 (amended): every request's trace of pipeline components is a prefix of
Verifier → Ledger duplicate-check → Validator → Ledger record → Dispatcher;
in particular the duplicate check precedes body parsing, so a duplicate is
short-circuited without the Validator ever running. -/
theorem c5_pipeline_order :
    ∀ (sel : List String → List String) (secret : String) (st : List String) (req : Request),
      ∃ n, (webhook sel secret st req).events =
        List.take n [PipeEv.verifier, PipeEv.ledgerCheck, PipeEv.validator,
                     PipeEv.ledgerRecord, PipeEv.dispatcher] := by
  intro sel secret st req
  simp only [webhook]
  repeat' split
  all_goals first
    | exact ⟨0, rfl⟩
    | exact ⟨1, rfl⟩
    | exact ⟨2, rfl⟩
    | exact ⟨3, rfl⟩
    | exact ⟨5, rfl⟩

/-- C5 (counterexample): on a duplicate delivery with a correctly signed but
malformed body, the Delivery Ledger is consulted although the Validator
never ran — the spec's Verifier → Validator → Ledger → Dispatcher order
does not hold on the code. -/
theorem c5_counterexample :
    ¬ componentOrderSpec ((webhook (fun l => l) "s" ["d1"]
      ⟨strBytes "\x7b", some (hexhmac (strBytes "\x7b") "s"), some "e", some "d1", none⟩).events) := by
  have hrun := webhook_dup (fun l => l) "s" ["d1"]
    ⟨strBytes "\x7b", some (hexhmac (strBytes "\x7b") "s"), some "e", some "d1", none⟩
    (hexhmac (strBytes "\x7b") "s") "e" "d1" rfl rfl rfl
    (hexhmac_ne_empty _ _) (by decide) (by decide) (verify_self _ _) rfl
  rw [hrun]
  decide

/-- C6: starting from the empty ledger the process boots with, after any
sequence of requests — under any admissible set iteration order — the
ledger never holds more than the configured 1000 entries plus one eviction
batch of 100. -/
theorem c6_ledger_bounded :
    ∀ (sel : List String → List String), Admissible sel →
      ∀ (secret : String) (reqs : List Request),
        (runState sel secret reqs).length ≤ 1000 + 100 := by
  intro sel hsel secret reqs
  have haux : ∀ (rs : List Request) (st : List String), st.length ≤ 1000 →
      (rs.foldl (fun s r => (webhook sel secret s r).state) st).length ≤ 1000 := by
    intro rs
    induction rs with
    | nil => intro st h; exact h
    | cons r rest ih =>
      intro st h
      rw [List.foldl_cons]
      apply ih
      rcases webhook_state_cases sel secret st r with hc | hc
      · rw [hc]; exact h
      · rw [hc]; exact recordStep_length_le sel hsel st _ h
  have h0 : (runState sel secret reqs).length ≤ 1000 := haux reqs [] (by simp)
  omega

theorem c6_ledger_bounded_witness :
    (runState (fun l => l) "s" []).length ≤ 1000 + 100 :=
  c6_ledger_bounded (fun l => l) (fun l => List.Perm.refl l) "s" []

/-- C7: a correctly signed first-time request whose body is the valid JSON
document `5` crashes the structure check (`'event' in 5` raises
`TypeError`), so the server answers 500 — a server error, not the claimed
client error — while the ledger is indeed left unchanged. -/
theorem c7_nondict_body_gives_500 :
    webhook (fun l => l) "s" []
      ⟨strBytes "5", some (hexhmac (strBytes "5") "s"), some "e", some "d0", none⟩ =
      ⟨500, .internalError, [], [.verifier, .ledgerCheck, .validator], none⟩ :=
  webhook_structError (fun l => l) "s" []
    ⟨strBytes "5", some (hexhmac (strBytes "5") "s"), some "e", some "d0", none⟩
    (hexhmac (strBytes "5") "s") "e" "d0" [53] (JsonVal.num "5")
    rfl rfl rfl (hexhmac_ne_empty _ _) (by decide) (by decide) (verify_self _ _)
    rfl rfl rfl rfl

/-- C3 (amended): (a) a correctly signed request bearing the required
headers, whose delivery identifier is not yet recorded and whose body
survives `json.loads`'s encoding detection and `'surrogatepass'` decoding
but fails JSON parsing, is rejected 400 with the invalid-payload error and
the ledger unchanged — never 401; (b) a request passing the header check
whose signature fails verification is rejected 401 and its body is never
parsed.  (As stated the claim is false: a duplicate delivery
short-circuits before parsing, see the counterexample.) -/
theorem c3_signature_before_parsing :
    (∀ (sel : List String → List String) (secret : String) (st : List String) (req : Request)
        (sig ev d : String) (cs : List Nat),
      req.signature = some sig → req.event = some ev → req.deliveryId = some d →
      ev ≠ "" → d ≠ "" →
      verify_webhook_signature req.payload sig secret = .ok true →
      st.contains d = false →
      pyDecodeBytes req.payload = some cs → jsonLoads cs = none →
      webhook sel secret st req =
        ⟨400, .invalidJson, st, [.verifier, .ledgerCheck, .validator], none⟩) ∧
    (∀ (sel : List String → List String) (secret : String) (st : List String) (req : Request)
        (sig ev d : String),
      req.signature = some sig → req.event = some ev → req.deliveryId = some d →
      sig ≠ "" → ev ≠ "" → d ≠ "" →
      verify_webhook_signature req.payload sig secret = .ok false →
      (webhook sel secret st req).status = 401 ∧
      PipeEv.validator ∉ (webhook sel secret st req).events) := by
  constructor
  · intro sel secret st req sig ev d cs h1 h2 h3 hev hd hver hdup hdec hparse
    exact webhook_badJson sel secret st req sig ev d cs h1 h2 h3
      (verify_ok_true_sig_ne_empty _ _ _ hver) hev hd hver hdup hdec hparse
  · intro sel secret st req sig ev d h1 h2 h3 hsig hev hd hver
    have hrun := webhook_badSig sel secret st req sig ev d h1 h2 h3 hsig hev hd hver
    rw [hrun]
    exact ⟨rfl, by simp⟩

theorem c3_signature_before_parsing_witness :
    (webhook (fun l => l) "s" []
      ⟨strBytes "\x7b", some (hexhmac (strBytes "\x7b") "s"), some "e", some "d0", none⟩ =
      ⟨400, .invalidJson, [], [.verifier, .ledgerCheck, .validator], none⟩) ∧
    ((webhook (fun l => l) "s" []
      ⟨strBytes "\x7b", some "00", some "e", some "d0", none⟩).status = 401 ∧
      PipeEv.validator ∉ (webhook (fun l => l) "s" []
        ⟨strBytes "\x7b", some "00", some "e", some "d0", none⟩).events) :=
  ⟨c3_signature_before_parsing.1 (fun l => l) "s" []
      ⟨strBytes "\x7b", some (hexhmac (strBytes "\x7b") "s"), some "e", some "d0", none⟩
      (hexhmac (strBytes "\x7b") "s") "e" "d0" [123]
      rfl rfl rfl (by decide) (by decide) (verify_self _ _) rfl rfl rfl,
   c3_signature_before_parsing.2 (fun l => l) "s" []
      ⟨strBytes "\x7b", some "00", some "e", some "d0", none⟩
      "00" "e" "d0" rfl rfl rfl (by decide) (by decide) (by decide)
      (verify_of_bad_length _ "00" "s" (by decide) (by decide))⟩

/-- C3 (counterexample): a correctly signed request whose body is malformed
JSON is answered 200 `already_processed` — not 400 — when its delivery
identifier is already in the ledger, because the duplicate check runs
before parsing. -/
theorem c3_counterexample :
    ∃ cs, pyDecodeBytes (strBytes "\x7b") = some cs ∧ jsonLoads cs = none ∧
      (webhook (fun l => l) "s" ["d1"]
        ⟨strBytes "\x7b", some (hexhmac (strBytes "\x7b") "s"), some "e", some "d1", none⟩).status
        = 200 ∧
      (webhook (fun l => l) "s" ["d1"]
        ⟨strBytes "\x7b", some (hexhmac (strBytes "\x7b") "s"), some "e", some "d1", none⟩).body
        = .alreadyProcessed := by
  refine ⟨[123], rfl, rfl, ?_⟩
  have hrun := webhook_dup (fun l => l) "s" ["d1"]
    ⟨strBytes "\x7b", some (hexhmac (strBytes "\x7b") "s"), some "e", some "d1", none⟩
    (hexhmac (strBytes "\x7b") "s") "e" "d1" rfl rfl rfl
    (hexhmac_ne_empty _ _) (by decide) (by decide) (verify_self _ _) rfl
  rw [hrun]
  exact ⟨rfl, rfl⟩

/-- C8: a validated first-time delivery whose dispatch block raises — the
handler's exception is captured, never propagated — still completes as a
200 success; the handler outcome changes nothing at the HTTP level. -/
theorem c8_handler_failure_still_success :
    ∀ (sel : List String → List String) (secret : String) (st : List String) (req : Request)
      (sig ev d : String) (cs : List Nat) (data : JsonVal),
      req.signature = some sig → req.event = some ev → req.deliveryId = some d →
      ev ≠ "" → d ≠ "" →
      verify_webhook_signature req.payload sig secret = .ok true →
      st.contains d = false →
      pyDecodeBytes req.payload = some cs → jsonLoads cs = some data →
      structCheck data = .ok true →
      tryDispatch ev data d = .error () →
      (webhook sel secret st req).status = 200 ∧
      (webhook sel secret st req).body = .success ∧
      (webhook sel secret st req).handler = some (.error ()) := by
  intro sel secret st req sig ev d cs data h1 h2 h3 hev hd hver hdup hdec hparse hstruct hfail
  have hrun := webhook_success sel secret st req sig ev d cs data h1 h2 h3
    (verify_ok_true_sig_ne_empty _ _ _ hver) hev hd hver hdup hdec hparse hstruct
  rw [hrun, hfail]
  exact ⟨rfl, rfl, rfl⟩

theorem c8_handler_failure_still_success_witness :
    tryDispatch "clip.approved"
      (JsonVal.obj [(strCodes "event", JsonVal.str (strCodes "x")),
                    (strCodes "timestamp", JsonVal.str (strCodes "t")),
                    (strCodes "data", JsonVal.num "1")]) "d1" = .error () ∧
    (webhook (fun l => l) "s" []
      ⟨strBytes "\x7b\"event\":\"x\",\"timestamp\":\"t\",\"data\":1\x7d",
       some (hexhmac (strBytes "\x7b\"event\":\"x\",\"timestamp\":\"t\",\"data\":1\x7d") "s"),
       some "clip.approved", some "d1", none⟩).status = 200 ∧
    (webhook (fun l => l) "s" []
      ⟨strBytes "\x7b\"event\":\"x\",\"timestamp\":\"t\",\"data\":1\x7d",
       some (hexhmac (strBytes "\x7b\"event\":\"x\",\"timestamp\":\"t\",\"data\":1\x7d") "s"),
       some "clip.approved", some "d1", none⟩).body = .success ∧
    (webhook (fun l => l) "s" []
      ⟨strBytes "\x7b\"event\":\"x\",\"timestamp\":\"t\",\"data\":1\x7d",
       some (hexhmac (strBytes "\x7b\"event\":\"x\",\"timestamp\":\"t\",\"data\":1\x7d") "s"),
       some "clip.approved", some "d1", none⟩).handler = some (.error ()) := by
  refine ⟨rfl, ?_⟩
  exact c8_handler_failure_still_success (fun l => l) "s" []
    ⟨strBytes "\x7b\"event\":\"x\",\"timestamp\":\"t\",\"data\":1\x7d",
     some (hexhmac (strBytes "\x7b\"event\":\"x\",\"timestamp\":\"t\",\"data\":1\x7d") "s"),
     some "clip.approved", some "d1", none⟩
    (hexhmac (strBytes "\x7b\"event\":\"x\",\"timestamp\":\"t\",\"data\":1\x7d") "s")
    "clip.approved" "d1"
    (strCodes "\x7b\"event\":\"x\",\"timestamp\":\"t\",\"data\":1\x7d")
    (JsonVal.obj [(strCodes "event", JsonVal.str (strCodes "x")),
                  (strCodes "timestamp", JsonVal.str (strCodes "t")),
                  (strCodes "data", JsonVal.num "1")])
    rfl rfl rfl (by decide) (by decide) (verify_self _ _) rfl (by decide) rfl rfl rfl

/-- C10: a request carrying any of the three required headers with an
empty-string value behaves exactly like the same request with that header
omitted: it is rejected 400 «Missing required headers» with the ledger
unchanged and no component run — in particular an empty signature yields
400, never 401. -/
theorem c10_empty_header_like_missing :
    ∀ (sel : List String → List String) (secret : String) (st : List String) (req : Request),
      (webhook sel secret st req = webhook sel secret st
        ⟨req.payload, omitEmpty req.signature, omitEmpty req.event,
         omitEmpty req.deliveryId, req.replay⟩) ∧
      ((req.signature = some "" ∨ req.event = some "" ∨ req.deliveryId = some "") →
        webhook sel secret st req = ⟨400, .missingHeaders, st, [], none⟩) := by
  intro sel secret st req
  constructor
  · exact webhook_congr sel secret st req _ rfl
      (omitEmpty_getD req.signature).symm (omitEmpty_getD req.event).symm
      (omitEmpty_getD req.deliveryId).symm
  · intro h
    apply webhook_missingHeaders
    rcases h with h | h | h
    · left; rw [h]; rfl
    · right; left; rw [h]; rfl
    · right; right; rw [h]; rfl

theorem c10_empty_header_like_missing_witness :
    (webhook (fun l => l) "s" [] ⟨[], some "", some "e", some "d1", none⟩ =
      webhook (fun l => l) "s" []
        ⟨[], omitEmpty (some ""), omitEmpty (some "e"), omitEmpty (some "d1"), none⟩) ∧
    webhook (fun l => l) "s" [] ⟨[], some "", some "e", some "d1", none⟩ =
      ⟨400, .missingHeaders, [], [], none⟩ :=
  ⟨(c10_empty_header_like_missing (fun l => l) "s" [] ⟨[], some "", some "e", some "d1", none⟩).1,
   (c10_empty_header_like_missing (fun l => l) "s" []
      ⟨[], some "", some "e", some "d1", none⟩).2 (Or.inl rfl)⟩

/-- C1 (code bug demonstration): when the ledger holds 1000 entries and the
set iteration order happens to list the fresh delivery identifier first,
the cleanup run by the first (successful) request evicts that very
identifier; the second request bearing the same identifier is then not
short-circuited — it is fully reprocessed and the dispatch block runs a
second time. -/
theorem c1_duplicate_reprocessed_at_capacity :
    ∀ (secret : String) (st : List String) (d ev : String) (p1 p2 : List Nat)
      (cs1 cs2 : List Nat) (data1 data2 : JsonVal),
      st.length = 1000 → st.contains d = false → d ≠ "" → ev ≠ "" →
      pyDecodeBytes p1 = some cs1 → jsonLoads cs1 = some data1 → structCheck data1 = .ok true →
      pyDecodeBytes p2 = some cs2 → jsonLoads cs2 = some data2 → structCheck data2 = .ok true →
      (webhook (firstSel d) secret st ⟨p1, some (hexhmac p1 secret), some ev, some d, none⟩).status = 200 ∧
      (webhook (firstSel d) secret st ⟨p1, some (hexhmac p1 secret), some ev, some d, none⟩).body = .success ∧
      (webhook (firstSel d) secret (webhook (firstSel d) secret st ⟨p1, some (hexhmac p1 secret), some ev, some d, none⟩).state ⟨p2, some (hexhmac p2 secret), some ev, some d, none⟩).status = 200 ∧
      (webhook (firstSel d) secret (webhook (firstSel d) secret st ⟨p1, some (hexhmac p1 secret), some ev, some d, none⟩).state ⟨p2, some (hexhmac p2 secret), some ev, some d, none⟩).body = .success ∧
      (webhook (firstSel d) secret st ⟨p1, some (hexhmac p1 secret), some ev, some d, none⟩).events.countP (fun e => e == PipeEv.dispatcher) +
        (webhook (firstSel d) secret (webhook (firstSel d) secret st ⟨p1, some (hexhmac p1 secret), some ev, some d, none⟩).state ⟨p2, some (hexhmac p2 secret), some ev, some d, none⟩).events.countP (fun e => e == PipeEv.dispatcher) = 2 := by
  intro secret st d ev p1 p2 cs1 cs2 data1 data2
  intro hlen hdup hd hev hdec1 hparse1 hstruct1 hdec2 hparse2 hstruct2
  have hdmem : d ∉ st := (contains_eq_false_iff st d).mp hdup
  have hr1 := webhook_success (firstSel d) secret st
    ⟨p1, some (hexhmac p1 secret), some ev, some d, none⟩
    (hexhmac p1 secret) ev d cs1 data1 rfl rfl rfl
    (hexhmac_ne_empty _ _) hev hd (verify_self p1 secret) hdup hdec1 hparse1 hstruct1
  have hstate : (webhook (firstSel d) secret st ⟨p1, some (hexhmac p1 secret), some ev, some d, none⟩).state = recordStep (firstSel d) st d := by rw [hr1]
  have hdup2 : (recordStep (firstSel d) st d).contains d = false :=
    recordStep_firstSel_evicts st d hlen hdmem
  have hr2 := webhook_success (firstSel d) secret (webhook (firstSel d) secret st ⟨p1, some (hexhmac p1 secret), some ev, some d, none⟩).state
    ⟨p2, some (hexhmac p2 secret), some ev, some d, none⟩
    (hexhmac p2 secret) ev d cs2 data2 rfl rfl rfl
    (hexhmac_ne_empty _ _) hev hd (verify_self p2 secret)
    (by rw [hstate]; exact hdup2) hdec2 hparse2 hstruct2
  rw [hr2, hr1]
  exact ⟨rfl, rfl, rfl, rfl, rfl⟩

set_option maxRecDepth 200000 in
theorem c1_duplicate_reprocessed_at_capacity_witness :
    (webhook (firstSel "d0") "s" ((List.range 1000).map (fun n => String.singleton (Char.ofNat (4096 + n)))) ⟨(strBytes "\x7b\"event\":\"a\",\"timestamp\":\"t\",\"data\":\x7b\x7d\x7d"), some (hexhmac (strBytes "\x7b\"event\":\"a\",\"timestamp\":\"t\",\"data\":\x7b\x7d\x7d") "s"), some "e", some "d0", none⟩).status = 200 ∧
    (webhook (firstSel "d0") "s" ((List.range 1000).map (fun n => String.singleton (Char.ofNat (4096 + n)))) ⟨(strBytes "\x7b\"event\":\"a\",\"timestamp\":\"t\",\"data\":\x7b\x7d\x7d"), some (hexhmac (strBytes "\x7b\"event\":\"a\",\"timestamp\":\"t\",\"data\":\x7b\x7d\x7d") "s"), some "e", some "d0", none⟩).body = .success ∧
    (webhook (firstSel "d0") "s" (webhook (firstSel "d0") "s" ((List.range 1000).map (fun n => String.singleton (Char.ofNat (4096 + n)))) ⟨(strBytes "\x7b\"event\":\"a\",\"timestamp\":\"t\",\"data\":\x7b\x7d\x7d"), some (hexhmac (strBytes "\x7b\"event\":\"a\",\"timestamp\":\"t\",\"data\":\x7b\x7d\x7d") "s"), some "e", some "d0", none⟩).state ⟨(strBytes "\x7b\"event\":\"a\",\"timestamp\":\"t\",\"data\":\x7b\x7d\x7d"), some (hexhmac (strBytes "\x7b\"event\":\"a\",\"timestamp\":\"t\",\"data\":\x7b\x7d\x7d") "s"), some "e", some "d0", none⟩).status = 200 ∧
    (webhook (firstSel "d0") "s" (webhook (firstSel "d0") "s" ((List.range 1000).map (fun n => String.singleton (Char.ofNat (4096 + n)))) ⟨(strBytes "\x7b\"event\":\"a\",\"timestamp\":\"t\",\"data\":\x7b\x7d\x7d"), some (hexhmac (strBytes "\x7b\"event\":\"a\",\"timestamp\":\"t\",\"data\":\x7b\x7d\x7d") "s"), some "e", some "d0", none⟩).state ⟨(strBytes "\x7b\"event\":\"a\",\"timestamp\":\"t\",\"data\":\x7b\x7d\x7d"), some (hexhmac (strBytes "\x7b\"event\":\"a\",\"timestamp\":\"t\",\"data\":\x7b\x7d\x7d") "s"), some "e", some "d0", none⟩).body = .success ∧
    (webhook (firstSel "d0") "s" ((List.range 1000).map (fun n => String.singleton (Char.ofNat (4096 + n)))) ⟨(strBytes "\x7b\"event\":\"a\",\"timestamp\":\"t\",\"data\":\x7b\x7d\x7d"), some (hexhmac (strBytes "\x7b\"event\":\"a\",\"timestamp\":\"t\",\"data\":\x7b\x7d\x7d") "s"), some "e", some "d0", none⟩).events.countP (fun e => e == PipeEv.dispatcher) +
      (webhook (firstSel "d0") "s" (webhook (firstSel "d0") "s" ((List.range 1000).map (fun n => String.singleton (Char.ofNat (4096 + n)))) ⟨(strBytes "\x7b\"event\":\"a\",\"timestamp\":\"t\",\"data\":\x7b\x7d\x7d"), some (hexhmac (strBytes "\x7b\"event\":\"a\",\"timestamp\":\"t\",\"data\":\x7b\x7d\x7d") "s"), some "e", some "d0", none⟩).state ⟨(strBytes "\x7b\"event\":\"a\",\"timestamp\":\"t\",\"data\":\x7b\x7d\x7d"), some (hexhmac (strBytes "\x7b\"event\":\"a\",\"timestamp\":\"t\",\"data\":\x7b\x7d\x7d") "s"), some "e", some "d0", none⟩).events.countP (fun e => e == PipeEv.dispatcher) = 2 :=
  c1_duplicate_reprocessed_at_capacity "s" ((List.range 1000).map (fun n => String.singleton (Char.ofNat (4096 + n)))) "d0" "e"
    (strBytes "\x7b\"event\":\"a\",\"timestamp\":\"t\",\"data\":\x7b\x7d\x7d") (strBytes "\x7b\"event\":\"a\",\"timestamp\":\"t\",\"data\":\x7b\x7d\x7d") (strCodes "\x7b\"event\":\"a\",\"timestamp\":\"t\",\"data\":\x7b\x7d\x7d") (strCodes "\x7b\"event\":\"a\",\"timestamp\":\"t\",\"data\":\x7b\x7d\x7d") (JsonVal.obj [(strCodes "event", JsonVal.str (strCodes "a")), (strCodes "timestamp", JsonVal.str (strCodes "t")), (strCodes "data", JsonVal.obj [])]) (JsonVal.obj [(strCodes "event", JsonVal.str (strCodes "a")), (strCodes "timestamp", JsonVal.str (strCodes "t")), (strCodes "data", JsonVal.obj [])])
    (by simp) (by decide) (by decide) (by decide)
    (by decide) rfl rfl (by decide) rfl rfl
